import Mathlib

/-!
Verification of the py-redis in-memory cache server against its
specification.

The development shallowly embeds the Python sources:

* `protocol.py` — RESP parser / serializer, over byte lists (`List Nat`,
  each element < 256) and codepoint lists (Python `str` is a sequence of
  Unicode codepoints; `bytes.decode` / `str.encode` are modelled by a
  strict UTF-8 codec below).
* `store.py` — the keyspace.  `time.time()` is modelled by threading an
  explicit `now : ℚ` argument through every operation that reads the
  clock.  Python floats are modelled as rationals: exact for the finite
  values exercised by the claims; IEEE infinities and NaN are outside
  the model.
* `hash_store.py`, `zset_store.py`, `commands.py`, `hash_commands.py`,
  `zset_commands.py` — hash and sorted-set engines and the command
  handlers.  Python dicts are modelled as insertion-ordered association
  lists with unique keys (`pyGet` / `pyInsert` / `pyRemoveKey` mirror
  `d.get`, `d[k] = v`, deletion).

Python code that raises is modelled with `Option` / error constructors.
-/

/- ------------------------------------------------------------------ -/
/- Decimal digits: Python `str(n)` for a natural number.               -/
/- ------------------------------------------------------------------ -/

/-- Decimal representation of a natural number as ASCII byte values.
The fuel argument only drives termination; `natRepr` supplies enough. -/
def natReprAux : Nat → Nat → List Nat
  | 0, _ => []
  | fuel + 1, n => if n < 10 then [n + 48] else natReprAux fuel (n / 10) ++ [n % 10 + 48]

/-- ASCII bytes of the decimal representation of `n` (Python `str(n)`). -/
def natRepr (n : Nat) : List Nat := natReprAux (n + 1) n

/-- ASCII bytes of the decimal representation of an integer
(Python `str(n)` / an f-string interpolation of an `int`). -/
def intRepr (n : Int) : List Nat :=
  if n < 0 then 45 :: natRepr n.natAbs else natRepr n.natAbs

/-- Value of a list of ASCII digit bytes, most significant first. -/
def digitsVal (l : List Nat) : Nat := l.foldl (fun a b => a * 10 + (b - 48)) 0

/-- All bytes are ASCII digits. -/
def allDigits (l : List Nat) : Bool := l.all (fun b => 48 ≤ b && b ≤ 57)

/-- Python `int(bytes_or_str)` restricted to an optional sign followed by
digits.  (Python additionally tolerates surrounding whitespace and
underscores between digits; no code path in the claims produces those.) -/
def pyIntOfBytes (l : List Nat) : Option Int :=
  match l with
  | [] => none
  | b :: rest =>
    if b = 45 then
      if allDigits rest ∧ rest ≠ [] then some (-(digitsVal rest : Int)) else none
    else if b = 43 then
      if allDigits rest ∧ rest ≠ [] then some (digitsVal rest : Int) else none
    else if allDigits (b :: rest) then some (digitsVal (b :: rest) : Int) else none

/- ------------------------------------------------------------------ -/
/- Strict UTF-8 codec: `str.encode` / `bytes.decode` of CPython.       -/
/- ------------------------------------------------------------------ -/

/-- UTF-8 encoding of one codepoint.  (CPython's `str.encode` raises on
surrogate codepoints; the claims only apply `encode` to encodable
strings, captured by `validChar` below.) -/
def utf8EncodeChar (c : Nat) : List Nat :=
  if c < 128 then [c]
  else if c < 2048 then [192 + c / 64, 128 + c % 64]
  else if c < 65536 then [224 + c / 4096, 128 + c / 64 % 64, 128 + c % 64]
  else [240 + c / 262144, 128 + c / 4096 % 64, 128 + c / 64 % 64, 128 + c % 64]

/-- UTF-8 encoding of a codepoint sequence (Python `str.encode()`). -/
def utf8Encode (s : List Nat) : List Nat := (s.map utf8EncodeChar).flatten

/-- Strict UTF-8 decoding of one leading sequence (one step of CPython's
`bytes.decode()`): rejects stray continuation bytes, truncated
sequences, overlong forms, surrogates and codepoints above U+10FFFF, as
CPython does.  Returns the codepoint and the remaining bytes. -/
def utf8DecodeChar : List Nat → Option (Nat × List Nat)
  | [] => none
  | b :: rest =>
    if b < 128 then some (b, rest)
    else if b < 194 then none
    else if b < 224 then
      match rest with
      | b1 :: rest' =>
        if 128 ≤ b1 ∧ b1 < 192 then some ((b - 192) * 64 + (b1 - 128), rest') else none
      | _ => none
    else if b < 240 then
      match rest with
      | b1 :: b2 :: rest' =>
        if (128 ≤ b1 ∧ b1 < 192) ∧ (128 ≤ b2 ∧ b2 < 192) then
          let c := (b - 224) * 4096 + (b1 - 128) * 64 + (b2 - 128)
          if 2048 ≤ c ∧ ¬(55296 ≤ c ∧ c < 57344) then some (c, rest') else none
        else none
      | _ => none
    else if b < 245 then
      match rest with
      | b1 :: b2 :: b3 :: rest' =>
        if (128 ≤ b1 ∧ b1 < 192) ∧ (128 ≤ b2 ∧ b2 < 192) ∧ (128 ≤ b3 ∧ b3 < 192) then
          let c := (b - 240) * 262144 + (b1 - 128) * 4096 + (b2 - 128) * 64 + (b3 - 128)
          if 65536 ≤ c ∧ c < 1114112 then some (c, rest') else none
        else none
      | _ => none
    else none

/-- Iterated `utf8DecodeChar`.  The fuel argument drives termination
only: one unit per decoded character, so the byte count suffices. -/
def utf8DecodeAux : Nat → List Nat → Option (List Nat)
  | _, [] => some []
  | 0, _ :: _ => none
  | fuel + 1, b :: rest =>
    match utf8DecodeChar (b :: rest) with
    | none => none
    | some (c, rest') => (utf8DecodeAux fuel rest').map (c :: ·)

/-- Strict UTF-8 decoding of a whole byte string (Python
`bytes.decode()`); `none` models `UnicodeDecodeError`. -/
def utf8Decode (l : List Nat) : Option (List Nat) := utf8DecodeAux l.length l

/-- A codepoint CPython can encode to UTF-8: in range and not a
surrogate. -/
def validChar (c : Nat) : Bool := c < 1114112 && !(55296 ≤ c && c < 57344)

/-- All codepoints of the string are encodable. -/
def validStr (s : List Nat) : Bool := s.all validChar

/- ------------------------------------------------------------------ -/
/- protocol.py                                                         -/
/- ------------------------------------------------------------------ -/

/-- data.find(b"\r\n") followed by the split in `_read_line`:
`some (data[:idx], data[idx+2:])` for the first CRLF, `none` when no
CRLF occurs (the `ValueError("Incomplete: no CRLF found")` path). -/
def readLine : List Nat → Option (List Nat × List Nat)
  | [] => none
  | [_] => none
  | a :: b :: rest =>
    if a = 13 ∧ b = 10 then some ([], rest)
    else
      match readLine (b :: rest) with
      | none => none
      | some (l, r) => some (a :: l, r)

/-- Whether the byte list contains an adjacent CR LF pair. -/
def hasCRLF : List Nat → Bool
  | [] => false
  | [_] => false
  | a :: b :: rest => (a = 13 && b = 10) || hasCRLF (b :: rest)

/-- Python slice `l[:i]` (negative `i` counts from the end). -/
def pyTakeTo (l : List Nat) (i : Int) : List Nat :=
  if 0 ≤ i then l.take i.toNat else l.take (l.length - i.natAbs)

/-- Python slice `l[j:]` (negative `j` counts from the end). -/
def pyDropFrom (l : List Nat) (j : Int) : List Nat :=
  if 0 ≤ j then l.drop j.toNat else l.drop (l.length - j.natAbs)

mutual
/-- `RESPValue` of protocol.py: `SimpleString | BulkString | RESPArray |
RESPError | int`.  Strings are codepoint sequences; `bulk none` is the
nil bulk string. -/
inductive RESPv : Type where
  | simple (s : List Nat) : RESPv
  | bulk (s : Option (List Nat)) : RESPv
  | int (n : Int) : RESPv
  | error (s : List Nat) : RESPv
  | array (items : RESPList) : RESPv
  deriving DecidableEq

/-- The item tuple of `RESPArray`, as a mutually inductive list (so that
all functions below are structurally recursive and kernel-computable). -/
inductive RESPList : Type where
  | nil : RESPList
  | cons (v : RESPv) (vs : RESPList) : RESPList
  deriving DecidableEq
end

/-- Length of a `RESPList` (Python `len(items)`). -/
def RESPList.length : RESPList → Nat
  | .nil => 0
  | .cons _ vs => vs.length + 1

mutual
/-- `serialize` of protocol.py, producing bytes.  Each branch mirrors the
corresponding `match` case; f-string interpolation plus `.encode()` is
UTF-8 encoding of the assembled codepoints, and the ASCII frame
characters encode to themselves. -/
def serialize : RESPv → List Nat
  | .simple s => 43 :: utf8Encode s ++ [13, 10]
  | .error s => 45 :: utf8Encode s ++ [13, 10]
  | .int n => 58 :: intRepr n ++ [13, 10]
  | .bulk none => [36, 45, 49, 13, 10]
  | .bulk (some s) => 36 :: natRepr s.length ++ [13, 10] ++ utf8Encode s ++ [13, 10]
  | .array items => 42 :: natRepr items.length ++ [13, 10] ++ serializeList items

/-- Serialization of the items of an array, concatenated in order
(the `parts` accumulation in the `RESPArray` branch). -/
def serializeList : RESPList → List Nat
  | .nil => []
  | .cons v vs => serialize v ++ serializeList vs
end

/-- The `for _ in range(count)` loop of `_parse_array`, abstracted over
the element parser `p`. -/
def goItems (p : List Nat → Option (RESPv × List Nat)) : Nat → List Nat → Option (RESPList × List Nat)
  | 0, buf => some (.nil, buf)
  | c + 1, buf =>
    match p buf with
    | none => none
    | some (v, buf') =>
      match goItems p c buf' with
      | none => none
      | some (vs, buf'') => some (.cons v vs, buf'')

/-- `parse` of protocol.py.  All `raise` paths (empty buffer, unknown
prefix, missing CRLF, malformed integer, short bulk string, decode
errors) return `none`.  The fuel argument drives termination only: it
bounds the recursion depth, and `parse` below supplies more fuel than
any input can consume (each recursion level consumes at least three
bytes of the buffer before descending). -/
def parseF : Nat → List Nat → Option (RESPv × List Nat)
  | 0, _ => none
  | fuel + 1, buf =>
    match buf with
    | [] => none
    | b :: rest =>
      if b = 43 then
        match readLine rest with
        | none => none
        | some (line, r) =>
          match utf8Decode line with
          | none => none
          | some s => some (.simple s, r)
      else if b = 45 then
        match readLine rest with
        | none => none
        | some (line, r) =>
          match utf8Decode line with
          | none => none
          | some s => some (.error s, r)
      else if b = 58 then
        match readLine rest with
        | none => none
        | some (line, r) =>
          match pyIntOfBytes line with
          | none => none
          | some n => some (.int n, r)
      else if b = 36 then
        match readLine rest with
        | none => none
        | some (lengthLine, r) =>
          match pyIntOfBytes lengthLine with
          | none => none
          | some length =>
            if length = -1 then some (.bulk none, r)
            else if (r.length : Int) < length + 2 then none
            else
              match utf8Decode (pyTakeTo r length) with
              | none => none
              | some s => some (.bulk (some s), pyDropFrom r (length + 2))
      else if b = 42 then
        match readLine rest with
        | none => none
        | some (countLine, r) =>
          match pyIntOfBytes countLine with
          | none => none
          | some count =>
            if count = -1 then some (.array .nil, r)
            else
              match goItems (parseF fuel) count.toNat r with
              | none => none
              | some (vs, r') => some (.array vs, r')
      else none

/-- `parse` of protocol.py (fuel instantiated; see `parseF`). -/
def parse (buf : List Nat) : Option (RESPv × List Nat) := parseF (buf.length + 1) buf

mutual
/-- Values constructible from the RESP grammar whose round trip the
amended claim C2 covers: strings encodable and, for the line-delimited
simple/error frames, free of embedded CR LF; bulk payloads ASCII. -/
def wfv : RESPv → Bool
  | .simple s => validStr s && !hasCRLF (utf8Encode s)
  | .error s => validStr s && !hasCRLF (utf8Encode s)
  | .int _ => true
  | .bulk none => true
  | .bulk (some s) => s.all (· < 128)
  | .array items => wfList items

/-- `wfv` on every item of an array. -/
def wfList : RESPList → Bool
  | .nil => true
  | .cons v vs => wfv v && wfList vs
end

/- ------------------------------------------------------------------ -/
/- Protocol lemmas                                                     -/
/- ------------------------------------------------------------------ -/

theorem digitsVal_append (l : List Nat) (d : Nat) :
    digitsVal (l ++ [d]) = digitsVal l * 10 + (d - 48) := by
  simp [digitsVal, List.foldl_append]

theorem natReprAux_spec (fuel : Nat) : ∀ n : Nat, n < 10 ^ fuel → 0 < fuel →
    allDigits (natReprAux fuel n) = true ∧ digitsVal (natReprAux fuel n) = n ∧
      natReprAux fuel n ≠ [] := by
  induction fuel with
  | zero => intro n _ h; omega
  | succ f ih =>
    intro n h _
    by_cases h10 : n < 10
    · simp [natReprAux, h10, allDigits, digitsVal]; omega
    · have hdiv : n / 10 < 10 ^ f := by
        have : n < 10 ^ f * 10 := by
          have := pow_succ 10 f
          omega
        omega
      have hf : 0 < f := by
        rcases Nat.eq_zero_or_pos f with h0 | h0
        · rw [h0] at hdiv; simp at hdiv; omega
        · exact h0
      obtain ⟨h1, h2, h3⟩ := ih (n / 10) hdiv hf
      refine ⟨?_, ?_, ?_⟩
      · simp [natReprAux, h10, allDigits] at h1 ⊢
        constructor
        · exact h1
        · omega
      · simp only [natReprAux, if_neg h10, digitsVal_append, h2]
        omega
      · simp [natReprAux, h10]

theorem natRepr_spec (n : Nat) :
    allDigits (natRepr n) = true ∧ digitsVal (natRepr n) = n ∧ natRepr n ≠ [] := by
  refine natReprAux_spec (n + 1) n ?_ (by omega)
  calc n < 10 ^ n := Nat.lt_pow_self (by norm_num) n
  _ ≤ 10 ^ (n + 1) := Nat.pow_le_pow_right (by norm_num) (by omega)

theorem allDigits_no13 (l : List Nat) (h : allDigits l = true) : ∀ b ∈ l, b ≠ 13 := by
  intro b hb
  simp [allDigits, List.all_eq_true] at h
  have := h b hb
  omega

theorem hasCRLF_eq_false (l : List Nat) (h : ∀ b ∈ l, b ≠ 13) : hasCRLF l = false := by
  induction l with
  | nil => rfl
  | cons a rest ih =>
    match rest, ih with
    | [], _ => rfl
    | b :: rest', ih =>
      have ha : a ≠ 13 := h a (by simp)
      simp only [hasCRLF]
      rw [ih (fun x hx => h x (by simp [hx]))]
      simp [ha]

theorem readLine_append (l : List Nat) (r : List Nat) (h : hasCRLF l = false) :
    readLine (l ++ 13 :: 10 :: r) = some (l, r) := by
  induction l with
  | nil => simp [readLine]
  | cons a l2 ih =>
    match l2, ih with
    | [], _ =>
      have ha : ¬(a = 13 ∧ (13 : Nat) = 10) := by omega
      simp [readLine, ha]
    | b :: l3, ih =>
      simp only [hasCRLF, Bool.or_eq_false_iff] at h
      have hab : ¬(a = 13 ∧ b = 10) := by
        intro hc
        rw [hc.1, hc.2] at h
        simp at h
      have hrec := ih h.2
      simp only [List.cons_append] at hrec ⊢
      simp only [readLine, if_neg hab]
      rw [hrec]



theorem utf8DecodeChar_encodeChar (c : Nat) (rest : List Nat) (h : validChar c = true) :
    utf8DecodeChar (utf8EncodeChar c ++ rest) = some (c, rest) := by
  simp only [validChar, Bool.and_eq_true, Bool.not_eq_true', Bool.and_eq_false_iff,
    decide_eq_true_eq, decide_eq_false_iff_not, not_le, not_lt] at h
  by_cases h1 : c < 128
  · rw [utf8EncodeChar, if_pos h1]
    simp only [List.cons_append, List.nil_append, utf8DecodeChar, if_pos h1]
  · by_cases h2 : c < 2048
    · rw [utf8EncodeChar, if_neg h1, if_pos h2]
      have m1 : c % 64 < 64 := Nat.mod_lt _ (by norm_num)
      have hdd : 2 ≤ c / 64 ∧ c / 64 < 32 := by
        constructor <;> omega
      have d1 := Nat.div_add_mod c 64
      simp only [List.cons_append, List.nil_append, utf8DecodeChar,
        if_neg (show ¬192 + c / 64 < 128 by omega), if_neg (show ¬192 + c / 64 < 194 by omega),
        if_pos (show 192 + c / 64 < 224 by omega),
        if_pos (show 128 ≤ 128 + c % 64 ∧ 128 + c % 64 < 192 by omega)]
      have hval : (192 + c / 64 - 192) * 64 + (128 + c % 64 - 128) = c := by omega
      rw [hval]
    · by_cases h3 : c < 65536
      · rw [utf8EncodeChar, if_neg h1, if_neg h2, if_pos h3]
        have m1 : c / 64 % 64 < 64 := Nat.mod_lt _ (by norm_num)
        have m2 : c % 64 < 64 := Nat.mod_lt _ (by norm_num)
        have d1 := Nat.div_add_mod c 64
        have d2 := Nat.div_add_mod (c / 64) 64
        have d3 : c / 64 / 64 = c / 4096 := by rw [Nat.div_div_eq_div_mul]
        have hdd : c / 4096 < 16 := by omega
        have hval : (224 + c / 4096 - 224) * 4096 + (128 + c / 64 % 64 - 128) * 64 +
            (128 + c % 64 - 128) = c := by omega
        simp only [List.cons_append, List.nil_append, utf8DecodeChar,
          if_neg (show ¬224 + c / 4096 < 128 by omega),
          if_neg (show ¬224 + c / 4096 < 194 by omega),
          if_neg (show ¬224 + c / 4096 < 224 by omega),
          if_pos (show 224 + c / 4096 < 240 by omega),
          if_pos (show (128 ≤ 128 + c / 64 % 64 ∧ 128 + c / 64 % 64 < 192) ∧
            128 ≤ 128 + c % 64 ∧ 128 + c % 64 < 192 by omega)]
        rw [if_pos (by rw [hval]; exact ⟨by omega, by rcases h.2 with hlt | hge <;> omega⟩)]
        rw [hval]
      · have hc4 : c < 1114112 := h.1
        rw [utf8EncodeChar, if_neg h1, if_neg h2, if_neg h3]
        have m1 : c / 4096 % 64 < 64 := Nat.mod_lt _ (by norm_num)
        have m2 : c / 64 % 64 < 64 := Nat.mod_lt _ (by norm_num)
        have m3 : c % 64 < 64 := Nat.mod_lt _ (by norm_num)
        have d1 := Nat.div_add_mod c 64
        have d2 := Nat.div_add_mod (c / 64) 64
        have d3 := Nat.div_add_mod (c / 4096) 64
        have d4 : c / 64 / 64 = c / 4096 := by rw [Nat.div_div_eq_div_mul]
        have d5 : c / 4096 / 64 = c / 262144 := by rw [Nat.div_div_eq_div_mul]
        have hdd : c / 262144 < 5 := by omega
        have hval : (240 + c / 262144 - 240) * 262144 + (128 + c / 4096 % 64 - 128) * 4096 +
            (128 + c / 64 % 64 - 128) * 64 + (128 + c % 64 - 128) = c := by omega
        simp only [List.cons_append, List.nil_append, utf8DecodeChar,
          if_neg (show ¬240 + c / 262144 < 128 by omega),
          if_neg (show ¬240 + c / 262144 < 194 by omega),
          if_neg (show ¬240 + c / 262144 < 224 by omega),
          if_neg (show ¬240 + c / 262144 < 240 by omega),
          if_pos (show 240 + c / 262144 < 245 by omega),
          if_pos (show (128 ≤ 128 + c / 4096 % 64 ∧ 128 + c / 4096 % 64 < 192) ∧
            (128 ≤ 128 + c / 64 % 64 ∧ 128 + c / 64 % 64 < 192) ∧
            128 ≤ 128 + c % 64 ∧ 128 + c % 64 < 192 by omega)]
        rw [if_pos (by rw [hval]; omega)]
        rw [hval]

theorem utf8EncodeChar_ne_nil (c : Nat) : utf8EncodeChar c ≠ [] := by
  rw [utf8EncodeChar]
  split
  · simp
  · split
    · simp
    · split <;> simp

theorem utf8Encode_cons (c : Nat) (s : List Nat) :
    utf8Encode (c :: s) = utf8EncodeChar c ++ utf8Encode s := by
  simp [utf8Encode]

theorem utf8DecodeAux_encode (s : List Nat) : ∀ fuel : Nat, validStr s = true →
    s.length ≤ fuel → utf8DecodeAux fuel (utf8Encode s) = some s := by
  induction s with
  | nil => intro fuel _ _; simp [utf8Encode, utf8DecodeAux]
  | cons c s ih =>
    intro fuel hv hf
    simp only [validStr, List.all_cons, Bool.and_eq_true] at hv
    match fuel, hf with
    | f + 1, hf =>
      rw [utf8Encode_cons]
      obtain ⟨b0, tail0, he⟩ : ∃ b0 tail0, utf8EncodeChar c = b0 :: tail0 := by
        rcases hc : utf8EncodeChar c with _ | ⟨b0, tail0⟩
        · exact absurd hc (utf8EncodeChar_ne_nil c)
        · exact ⟨b0, tail0, rfl⟩
      rw [he, List.cons_append, utf8DecodeAux, ← List.cons_append, ← he,
        utf8DecodeChar_encodeChar c _ hv.1]
      show (utf8DecodeAux f (utf8Encode s)).map (c :: ·) = some (c :: s)
      rw [ih f (by simp [validStr, hv.2]) (by simpa using hf)]
      rfl

theorem utf8Decode_encode (s : List Nat) (h : validStr s = true) :
    utf8Decode (utf8Encode s) = some s := by
  refine utf8DecodeAux_encode s (utf8Encode s).length h ?_
  have : ∀ t : List Nat, t.length ≤ (utf8Encode t).length := by
    intro t
    induction t with
    | nil => simp [utf8Encode]
    | cons c t iht =>
      rw [utf8Encode_cons, List.length_append]
      have : 1 ≤ (utf8EncodeChar c).length := by
        rcases hc : utf8EncodeChar c with _ | _
        · exact absurd hc (utf8EncodeChar_ne_nil c)
        · simp
      simp only [List.length_cons]
      omega
  exact this s

theorem utf8Encode_ascii (s : List Nat) (h : s.all (· < 128) = true) : utf8Encode s = s := by
  induction s with
  | nil => rfl
  | cons c s ih =>
    simp only [List.all_cons, Bool.and_eq_true, decide_eq_true_eq] at h
    rw [utf8Encode_cons, utf8EncodeChar, if_pos h.1, ih h.2]
    rfl

theorem validStr_of_ascii (s : List Nat) (h : s.all (· < 128) = true) : validStr s = true := by
  simp only [List.all_eq_true, decide_eq_true_eq] at h
  simp only [validStr, List.all_eq_true]
  intro c hc
  have := h c hc
  simp only [validChar, Bool.and_eq_true, Bool.not_eq_true', Bool.and_eq_false_iff]
  constructor
  · simp; omega
  · left; simp; omega

theorem pyIntOfBytes_digits (l : List Nat) (h : allDigits l = true) (hne : l ≠ []) :
    pyIntOfBytes l = some (digitsVal l : Int) := by
  match l with
  | [] => exact absurd rfl hne
  | b :: rest =>
    have hb : 48 ≤ b ∧ b ≤ 57 := by
      simp only [allDigits, List.all_cons, Bool.and_eq_true, decide_eq_true_eq] at h
      exact ⟨by omega, by omega⟩
    have h45 : b ≠ 45 := by omega
    have h43 : b ≠ 43 := by omega
    simp [pyIntOfBytes, h45, h43, h]

theorem pyIntOfBytes_natRepr (n : Nat) : pyIntOfBytes (natRepr n) = some (n : Int) := by
  obtain ⟨h1, h2, h3⟩ := natRepr_spec n
  rw [pyIntOfBytes_digits _ h1 h3, h2]

theorem pyIntOfBytes_intRepr (n : Int) : pyIntOfBytes (intRepr n) = some n := by
  by_cases h : n < 0
  · obtain ⟨h1, h2, h3⟩ := natRepr_spec n.natAbs
    rw [intRepr, if_pos h]
    show pyIntOfBytes (45 :: natRepr n.natAbs) = some n
    rw [pyIntOfBytes, if_pos rfl, if_pos ⟨h1, h3⟩, h2]
    congr 1
    omega
  · rw [intRepr, if_neg h, pyIntOfBytes_natRepr]
    congr 1
    omega

theorem natRepr_no13 (n : Nat) : ∀ b ∈ natRepr n, b ≠ 13 := by
  intro b hb
  have h1 := (natRepr_spec n).1
  simp only [allDigits, List.all_eq_true, Bool.and_eq_true, decide_eq_true_eq] at h1
  have := h1 b hb
  omega

theorem intRepr_no13 (n : Int) : ∀ b ∈ intRepr n, b ≠ 13 := by
  intro b hb
  have h1 := (natRepr_spec n.natAbs).1
  simp only [allDigits, List.all_eq_true, Bool.and_eq_true, decide_eq_true_eq] at h1
  rw [intRepr] at hb
  by_cases h : n < 0
  · rw [if_pos h] at hb
    rcases List.mem_cons.mp hb with h45 | hd
    · omega
    · have := h1 b hd
      omega
  · rw [if_neg h] at hb
    have := h1 b hb
    omega

theorem drop_len_plus (l t : List Nat) (n : Nat) : (l ++ t).drop (l.length + n) = t.drop n := by
  induction l with
  | nil => simp
  | cons a l ih => simpa [Nat.succ_add] using ih

theorem natRepr_len_pos (n : Nat) : 1 ≤ (natRepr n).length := by
  have := (natRepr_spec n).2.2
  cases h : natRepr n with
  | nil => exact absurd h this
  | cons a l => simp

theorem hasCRLF_natRepr (n : Nat) : hasCRLF (natRepr n) = false :=
  hasCRLF_eq_false _ (natRepr_no13 n)

theorem hasCRLF_intRepr (n : Int) : hasCRLF (intRepr n) = false :=
  hasCRLF_eq_false _ (intRepr_no13 n)

mutual
theorem parseF_serialize (v : RESPv) : ∀ (rest : List Nat) (fuel : Nat), wfv v = true →
    (serialize v).length + rest.length ≤ fuel →
    parseF fuel (serialize v ++ rest) = some (v, rest) := by
  match v with
  | .simple s =>
    intro rest fuel hwf hf
    simp only [wfv, Bool.and_eq_true, Bool.not_eq_true'] at hwf
    cases fuel with
    | zero => exfalso; simp [serialize] at hf
    | succ f =>
      simp only [serialize, List.cons_append, List.append_assoc, List.nil_append]
      simp only [parseF, readLine_append _ _ hwf.2, utf8Decode_encode s hwf.1, reduceIte]
  | .error s =>
    intro rest fuel hwf hf
    simp only [wfv, Bool.and_eq_true, Bool.not_eq_true'] at hwf
    cases fuel with
    | zero => exfalso; simp [serialize] at hf
    | succ f =>
      simp only [serialize, List.cons_append, List.append_assoc, List.nil_append]
      simp only [parseF, show ¬((45 : Nat) = 43) from by decide,
        readLine_append _ _ hwf.2, utf8Decode_encode s hwf.1, reduceIte]
  | .int n =>
    intro rest fuel _ hf
    cases fuel with
    | zero => exfalso; simp [serialize] at hf
    | succ f =>
      simp only [serialize, List.cons_append, List.append_assoc, List.nil_append]
      simp only [parseF, show ¬((58 : Nat) = 43) from by decide,
        show ¬((58 : Nat) = 45) from by decide,
        readLine_append _ _ (hasCRLF_intRepr n), pyIntOfBytes_intRepr, reduceIte]
  | .bulk none =>
    intro rest fuel _ hf
    cases fuel with
    | zero => exfalso; simp [serialize] at hf
    | succ f =>
      simp only [serialize, List.cons_append, List.nil_append]
      have hrl : readLine (45 :: 49 :: 13 :: 10 :: rest) = some ([45, 49], rest) := by
        rw [show (45 :: 49 :: 13 :: 10 :: rest) = [45, 49] ++ 13 :: 10 :: rest from rfl]
        exact readLine_append [45, 49] rest (by decide)
      simp only [parseF, show ¬((36 : Nat) = 43) from by decide,
        show ¬((36 : Nat) = 45) from by decide, show ¬((36 : Nat) = 58) from by decide,
        hrl, show pyIntOfBytes [45, 49] = some (-1) from by decide, reduceIte]
  | .bulk (some s) =>
    intro rest fuel hwf hf
    simp only [wfv] at hwf
    have henc : utf8Encode s = s := utf8Encode_ascii s hwf
    cases fuel with
    | zero => exfalso; simp [serialize] at hf
    | succ f =>
      simp only [serialize, henc, List.cons_append, List.append_assoc, List.cons_append,
        List.nil_append]
      have hrl : readLine (natRepr s.length ++ 13 :: 10 :: (s ++ 13 :: 10 :: rest)) =
          some (natRepr s.length, s ++ 13 :: 10 :: rest) :=
        readLine_append _ _ (hasCRLF_natRepr s.length)
      have hne : ¬((s.length : Int) = -1) := by omega
      have hlen : ¬(((s ++ 13 :: 10 :: rest).length : Int) < (s.length : Int) + 2) := by
        simp only [List.length_append, List.length_cons]
        push_cast
        omega
      have htake : pyTakeTo (s ++ 13 :: 10 :: rest) (s.length : Int) = s := by
        rw [pyTakeTo, if_pos (by omega)]
        have h0 : ((s.length : Int)).toNat = s.length := by omega
        rw [h0, List.take_left]
      have hdrop : pyDropFrom (s ++ 13 :: 10 :: rest) ((s.length : Int) + 2) = rest := by
        rw [pyDropFrom, if_pos (by omega)]
        have h0 : ((s.length : Int) + 2).toNat = s.length + 2 := by omega
        rw [h0, drop_len_plus]
        rfl
      have hdec : utf8Decode s = some s := by
        have h0 := utf8Decode_encode s (validStr_of_ascii s hwf)
        rw [henc] at h0
        exact h0
      simp only [parseF, show ¬((36 : Nat) = 43) from by decide,
        show ¬((36 : Nat) = 45) from by decide, show ¬((36 : Nat) = 58) from by decide,
        hrl, pyIntOfBytes_natRepr, hne, hlen, htake, hdrop, hdec, reduceIte]
  | .array items =>
    intro rest fuel hwf hf
    simp only [wfv] at hwf
    cases fuel with
    | zero => exfalso; simp [serialize] at hf
    | succ f =>
      simp only [serialize, List.cons_append, List.append_assoc, List.cons_append,
        List.nil_append]
      have hrl : readLine (natRepr items.length ++ 13 :: 10 :: (serializeList items ++ rest)) =
          some (natRepr items.length, serializeList items ++ rest) :=
        readLine_append _ _ (hasCRLF_natRepr items.length)
      have hne : ¬((items.length : Int) = -1) := by omega
      have htn : ((items.length : Int)).toNat = items.length := by omega
      have hb : (serializeList items).length + rest.length ≤ f := by
        have h1 := natRepr_len_pos items.length
        simp only [serialize, List.length_cons, List.length_append] at hf
        omega
      simp only [parseF, show ¬((42 : Nat) = 43) from by decide,
        show ¬((42 : Nat) = 45) from by decide, show ¬((42 : Nat) = 58) from by decide,
        show ¬((42 : Nat) = 36) from by decide,
        hrl, pyIntOfBytes_natRepr, hne, htn,
        goItems_serializeList items rest f hwf hb, reduceIte]

theorem goItems_serializeList (l : RESPList) : ∀ (rest : List Nat) (fuel : Nat),
    wfList l = true → (serializeList l).length + rest.length ≤ fuel →
    goItems (parseF fuel) l.length (serializeList l ++ rest) = some (l, rest) := by
  match l with
  | .nil =>
    intro rest fuel _ _
    simp [serializeList, goItems, RESPList.length]
  | .cons v vs =>
    intro rest fuel hwf hf
    simp only [wfList, Bool.and_eq_true] at hwf
    simp only [serializeList, List.length_append] at hf
    simp only [RESPList.length, serializeList, List.append_assoc, goItems,
      parseF_serialize v (serializeList vs ++ rest) fuel hwf.1
        (by simp only [List.length_append]; omega),
      goItems_serializeList vs rest fuel hwf.2 (by omega)]
end

/- ------------------------------------------------------------------ -/
/- Python dicts as insertion-ordered association lists                 -/
/- ------------------------------------------------------------------ -/

/-- Python `d.get(k)` (also `d[k]` at call sites where the key exists). -/
def pyGet {K V : Type} [DecidableEq K] : List (K × V) → K → Option V
  | [], _ => none
  | (k', v) :: rest, k => if k' = k then some v else pyGet rest k

/-- Python `d[k] = v` (and `{**d, k: v}`): update in place if present,
else append, preserving insertion order as CPython dicts do. -/
def pyInsert {K V : Type} [DecidableEq K] : List (K × V) → K → V → List (K × V)
  | [], k, v => [(k, v)]
  | (k', v') :: rest, k, v =>
    if k' = k then (k, v) :: rest else (k', v') :: pyInsert rest k v

/-- Python key removal: `d.pop(k)` / `{x: w for x, w in d.items() if x != k}`. -/
def pyRemoveKey {K V : Type} [DecidableEq K] (d : List (K × V)) (k : K) : List (K × V) :=
  d.filter (fun p => !decide (p.1 = k))

/- ------------------------------------------------------------------ -/
/- Python numeric string conversions                                   -/
/- ------------------------------------------------------------------ -/

/-- Value of a list of ASCII digit characters. -/
def digitsToNat (l : List Char) : Nat := l.foldl (fun a c => a * 10 + (c.toNat - 48)) 0

/-- Python `int(str)` restricted to an optional sign followed by digits
(Python additionally tolerates surrounding whitespace and underscores;
no claim exercises those). -/
def pyParseInt (s : String) : Option Int :=
  match s.toList with
  | [] => none
  | c :: rest =>
    if c = '-' then
      if rest ≠ [] ∧ rest.all Char.isDigit then some (-(digitsToNat rest : Int)) else none
    else if c = '+' then
      if rest ≠ [] ∧ rest.all Char.isDigit then some (digitsToNat rest : Int) else none
    else if (c :: rest).all Char.isDigit then some (digitsToNat (c :: rest) : Int) else none

/-- Python `float(str)` restricted to plain decimal literals with an
optional sign and optional fractional part, mapped to the exact
rational.  (Exponents, `inf`, `nan` and whitespace tolerance are not
modelled; no claim exercises them.  Doubles are modelled as rationals,
exact for the short literals in the claims.) -/
def pyParseFloat (s : String) : Option ℚ :=
  let l := s.toList
  let p :=
    match l with
    | '-' :: t => (true, t)
    | '+' :: t => (false, t)
    | _ => (false, l)
  let l1 := p.2
  let ip := l1.takeWhile Char.isDigit
  let r1 := l1.dropWhile Char.isDigit
  let build : Option ℚ :=
    match r1 with
    | [] => if ip.isEmpty then none else some (digitsToNat ip : ℚ)
    | '.' :: r2 =>
      let fp := r2.takeWhile Char.isDigit
      let r3 := r2.dropWhile Char.isDigit
      if ¬r3.isEmpty then none
      else if ip.isEmpty ∧ fp.isEmpty then none
      else some ((digitsToNat ip : ℚ) + (digitsToNat fp : ℚ) / (10 : ℚ) ^ fp.length)
    | _ => none
  build.map (fun q => if p.1 then -q else q)

/-- Python `int(float)` truncation toward zero. -/
def pyTrunc (q : ℚ) : Int := Int.tdiv q.num q.den

/-- Decimal digits of the fractional part `0 ≤ r < 1`, up to 17 places. -/
def fracDigitsList : Nat → ℚ → List Char
  | 0, _ => []
  | f + 1, r =>
    if r = 0 then []
    else
      let d := pyTrunc (r * 10)
      Char.ofNat (48 + d.toNat) :: fracDigitsList f (r * 10 - (d : ℚ))

/-- Python `str(float)` (= `repr`): CPython prints the shortest decimal
that round-trips; on the model's rationals — whose decimal expansions
are short and exact for every value in the claims — that is the exact
decimal expansion, with integral values rendered with a trailing
`.0`. -/
def pyStrFloat (q : ℚ) : String :=
  if q.den = 1 then toString q.num ++ ".0"
  else
    (if q < 0 then "-" else "") ++ toString (pyTrunc |q|) ++ "." ++
      String.mk (fracDigitsList 17 (|q| - (pyTrunc |q| : ℚ)))

/-- ASCII uppercase of one character (Python `str.upper` on the ASCII
option tokens the handlers uppercase). -/
def charUpper (c : Char) : Char :=
  if 'a' ≤ c && c ≤ 'z' then Char.ofNat (c.toNat - 32) else c

/-- Python `s.upper()` (ASCII; the handlers only uppercase option
tokens). -/
def pyUpper (s : String) : String := String.mk (s.toList.map charUpper)

/-- Python `s.startswith(prefix)`. -/
def pyStartsWith (s pre : String) : Bool := pre.toList.isPrefixOf s.toList

/- ------------------------------------------------------------------ -/
/- fnmatch (stdlib), used by store.keys                                -/
/- ------------------------------------------------------------------ -/

/-- Model of the stdlib `fnmatch.fnmatch` glob match restricted to `*`,
`?` and literal characters (bracket classes are not modelled — no claim
exercises them; on POSIX `normcase` is the identity, so no case
folding).  `*` matches any run of characters, `?` exactly one. -/
def fnmatchList : List Char → List Char → Bool
  | [], s => s.isEmpty
  | '*' :: ps, s => (List.range (s.length + 1)).any (fun i => fnmatchList ps (s.drop i))
  | '?' :: ps, s =>
    match s with
    | [] => false
    | _ :: s' => fnmatchList ps s'
  | c :: ps, s =>
    match s with
    | [] => false
    | c' :: s' => c = c' && fnmatchList ps s'

/-- `fnmatch.fnmatch(name, pattern)`. -/
def fnmatch (name : String) (pattern : String) : Bool :=
  fnmatchList pattern.toList name.toList

/- ------------------------------------------------------------------ -/
/- store.py                                                            -/
/- ------------------------------------------------------------------ -/

/-- `SortedSet` of zset_store.py: `scores : dict[member, score]` and
`ranked : list[(score, member)]`. -/
structure ZSet where
  scores : List (String × ℚ)
  ranked : List (ℚ × String)
  deriving DecidableEq

/-- The value slot of a `StoreEntry` (`Any` in the source; the three
kinds the code stores and discriminates with `isinstance`). -/
inductive Value : Type where
  | str (s : String)
  | hash (h : List (String × String))
  | zset (z : ZSet)
  deriving DecidableEq

/-- `StoreEntry` of store.py. -/
structure StoreEntry where
  value : Value
  expires_at : Option ℚ
  deriving DecidableEq

/-- The keyspace: `dict[str, StoreEntry]`. -/
abbrev Store := List (String × StoreEntry)

/-- `store_get` of store.py; `now` models `time.time()`. -/
def store_get (now : ℚ) (store : Store) (key : String) : Option StoreEntry :=
  match pyGet store key with
  | none => none
  | some entry =>
    match entry.expires_at with
    | some e => if now > e then none else some entry
    | none => some entry

/-- `store_set` of store.py. -/
def store_set (now : ℚ) (store : Store) (key : String) (value : Value)
    (ttl_seconds : Option ℚ) : Store :=
  pyInsert store key ⟨value, ttl_seconds.map (fun t => now + t)⟩

/-- `store_delete` of store.py: counts raw key presence, then filters. -/
def store_delete (store : Store) (keys : List String) : Store × Nat :=
  let deleted := (keys.filter (fun k => (pyGet store k).isSome)).length
  let new_store := store.filter (fun p => !keys.contains p.1)
  (new_store, deleted)

/-- `store_exists` of store.py: counts TTL-aware (`store_get`) hits. -/
def store_exists (now : ℚ) (store : Store) (keys : List String) : Nat :=
  (keys.filter (fun k => (store_get now store k).isSome)).length

/-- `store_keys` of store.py: glob filter over non-expired raw entries. -/
def store_keys (now : ℚ) (store : Store) (pattern : String) : List String :=
  (store.filter (fun p =>
    fnmatch p.1 pattern &&
      (match p.2.expires_at with
       | none => true
       | some e => decide (e > now)))).map (fun p => p.1)

/-- `store_ttl` of store.py: raw `store.get` (not TTL-aware), `-2` when
absent, `-1` without expiry, else `max(0, int(remaining))`. -/
def store_ttl (now : ℚ) (store : Store) (key : String) : Int :=
  match pyGet store key with
  | none => -2
  | some entry =>
    match entry.expires_at with
    | none => -1
    | some e => max 0 (pyTrunc (e - now))

/- ------------------------------------------------------------------ -/
/- hash_store.py                                                       -/
/- ------------------------------------------------------------------ -/

/-- The `_wrong_type()` message shared by hash_store.py and
zset_store.py. -/
def wrong_type : String := "WRONGTYPE Operation against a key holding the wrong kind of value"

/-- Result of `_get_hash`: the inner dict, `None`, or the WRONGTYPE
error string. -/
inductive HashGet : Type where
  | found (h : List (String × String)) : HashGet
  | missing : HashGet
  | err (s : String) : HashGet
  deriving DecidableEq

/-- `_get_hash` of hash_store.py (TTL-aware via `store_get`;
`isinstance(entry.value, dict)` is the `Value.hash` tag). -/
def get_hash (now : ℚ) (store : Store) (key : String) : HashGet :=
  match store_get now store key with
  | none => .missing
  | some entry =>
    match entry.value with
    | .hash h => .found h
    | _ => .err wrong_type

/-- `_put_hash` of hash_store.py: write the inner dict, preserving the
raw (`store.get`, not TTL-aware) existing `expires_at`. -/
def put_hash (store : Store) (key : String) (inner : List (String × String)) : Store :=
  let expires_at :=
    match pyGet store key with
    | some e => e.expires_at
    | none => none
  pyInsert store key ⟨.hash inner, expires_at⟩

/-- `int | str` results of the engine functions (the source conflates
success ints with error strings). -/
inductive IntOrErr : Type where
  | int (n : Int) : IntOrErr
  | err (s : String) : IntOrErr
  deriving DecidableEq

/-- `hash_set` of hash_store.py: counts new fields before inserting all
pairs in order. -/
def hash_set (now : ℚ) (store : Store) (key : String) (pairs : List (String × String)) :
    Store × IntOrErr :=
  match get_hash now store key with
  | .err e => (store, .err e)
  | g =>
    let inner0 := match g with | .found h => h | _ => []
    let added := (pairs.filter (fun p => (pyGet inner0 p.1).isNone)).length
    let inner := pairs.foldl (fun acc p => pyInsert acc p.1 p.2) inner0
    (put_hash store key inner, .int added)

/-- `hash_setnx` of hash_store.py. -/
def hash_setnx (now : ℚ) (store : Store) (key : String) (field : String) (value : String) :
    Store × IntOrErr :=
  match get_hash now store key with
  | .err e => (store, .err e)
  | g =>
    let inner0 := match g with | .found h => h | _ => []
    match pyGet inner0 field with
    | some _ => (store, .int 0)
    | none => (put_hash store key (pyInsert inner0 field value), .int 1)

/-- `hash_del` of hash_store.py: counts hits against the pre-deletion
dict, then removes; drops the key entirely when the hash empties. -/
def hash_del (now : ℚ) (store : Store) (key : String) (fields : List String) :
    Store × IntOrErr :=
  match get_hash now store key with
  | .err e => (store, .err e)
  | .missing => (store, .int 0)
  | .found h =>
    let deleted := (fields.filter (fun f => (pyGet h f).isSome)).length
    let inner := fields.foldl (fun acc f => pyRemoveKey acc f) h
    if inner = [] then (pyRemoveKey store key, .int deleted)
    else (put_hash store key inner, .int deleted)

/-- `hash_incrby` of hash_store.py (`int(current)` modelled by
`pyParseInt`; parse failure is the `ERR hash value is not an integer`
path). -/
def hash_incrby (now : ℚ) (store : Store) (key : String) (field : String) (increment : Int) :
    Store × IntOrErr :=
  match get_hash now store key with
  | .err e => (store, .err e)
  | g =>
    let inner0 := match g with | .found h => h | _ => []
    let current := (pyGet inner0 field).getD "0"
    match pyParseInt current with
    | none => (store, .err "ERR hash value is not an integer")
    | some cur =>
      let new_val := cur + increment
      (put_hash store key (pyInsert inner0 field (toString new_val)), .int new_val)

/-- `str | str` result of `hash_incrbyfloat` (success is the formatted
value, failure an `ERR` string; the source conflates both as `str`). -/
inductive StrOrErr : Type where
  | ok (s : String) : StrOrErr
  | err (s : String) : StrOrErr
  deriving DecidableEq

/-- The `%.17g` formatting of `hash_incrbyfloat`, modelled like
`pyStrFloat` but without the trailing `.0` on integral values (as `%g`
strips it).  Adequate for the short exact decimals of the model. -/
def pyFormat17g (q : ℚ) : String :=
  if q.den = 1 then toString q.num
  else
    (if q < 0 then "-" else "") ++ toString (pyTrunc |q|) ++ "." ++
      String.mk (fracDigitsList 17 (|q| - (pyTrunc |q| : ℚ)))

/-- `hash_incrbyfloat` of hash_store.py.  The NaN/Inf guard of the
source cannot fire in the rational model and is omitted. -/
def hash_incrbyfloat (now : ℚ) (store : Store) (key : String) (field : String)
    (increment : ℚ) : Store × StrOrErr :=
  match get_hash now store key with
  | .err e => (store, .err e)
  | g =>
    let inner0 := match g with | .found h => h | _ => []
    let current := (pyGet inner0 field).getD "0"
    match pyParseFloat current with
    | none => (store, .err "ERR hash value is not a float")
    | some cur =>
      let new_val := cur + increment
      let formatted := pyFormat17g new_val
      (put_hash store key (pyInsert inner0 field formatted), .ok formatted)

/-- `hash_get` of hash_store.py.  Faithful to the source's conflation:
when the key holds a non-hash value the WRONGTYPE *string itself* is
returned in the `some` (the handler tells it apart with
`startswith("WRONGTYPE")`). -/
def hash_get (now : ℚ) (store : Store) (key : String) (field : String) : Option String :=
  match get_hash now store key with
  | .missing => none
  | .err e => some e
  | .found h => pyGet h field

/- ------------------------------------------------------------------ -/
/- zset_store.py                                                       -/
/- ------------------------------------------------------------------ -/

/-- Result of `_get_zset`: the `SortedSet`, `None`, or the WRONGTYPE
error string. -/
inductive ZsetGet : Type where
  | found (z : ZSet) : ZsetGet
  | missing : ZsetGet
  | err (s : String) : ZsetGet
  deriving DecidableEq

/-- `_get_zset` of zset_store.py. -/
def get_zset (now : ℚ) (store : Store) (key : String) : ZsetGet :=
  match store_get now store key with
  | none => .missing
  | some entry =>
    match entry.value with
    | .zset z => .found z
    | _ => .err wrong_type

/-- `_put_zset` of zset_store.py: preserves the raw existing
`expires_at`, like `_put_hash`. -/
def put_zset (store : Store) (key : String) (z : ZSet) : Store :=
  let expires_at :=
    match pyGet store key with
    | some e => e.expires_at
    | none => none
  pyInsert store key ⟨.zset z, expires_at⟩

/-- Python string comparison: lexicographic on codepoints. -/
def charListLt : List Char → List Char → Bool
  | [], [] => false
  | [], _ :: _ => true
  | _ :: _, [] => false
  | c :: cs, d :: ds => c.toNat < d.toNat || (c.toNat = d.toNat && charListLt cs ds)

/-- Python `a < b` on strings. -/
def pyStrLt (a b : String) : Bool := charListLt a.toList b.toList

/-- Python tuple comparison `(score, member) < (score', member')`:
lexicographic, member strings compared by codepoint. -/
def pairLt (a b : ℚ × String) : Bool :=
  decide (a.1 < b.1) || (decide (a.1 = b.1) && pyStrLt a.2 b.2)

/-- The `bisect.bisect_left` binary-search loop (`lo`, `hi` bounds; fuel
drives termination — the interval shrinks every iteration, so
`len + 1` suffices). -/
def bisectLoopL (a : List (ℚ × String)) (x : ℚ × String) : Nat → Nat → Nat → Nat
  | 0, lo, _ => lo
  | f + 1, lo, hi =>
    if lo < hi then
      let mid := (lo + hi) / 2
      if pairLt (a.getD mid (0, "")) x then bisectLoopL a x f (mid + 1) hi
      else bisectLoopL a x f lo mid
    else lo

/-- `bisect.bisect_left(a, x)`. -/
def bisect_left (a : List (ℚ × String)) (x : ℚ × String) : Nat :=
  bisectLoopL a x (a.length + 1) 0 a.length

/-- The `bisect.bisect_right` binary-search loop. -/
def bisectLoopR (a : List (ℚ × String)) (x : ℚ × String) : Nat → Nat → Nat → Nat
  | 0, lo, _ => lo
  | f + 1, lo, hi =>
    if lo < hi then
      let mid := (lo + hi) / 2
      if pairLt x (a.getD mid (0, "")) then bisectLoopR a x f lo mid
      else bisectLoopR a x f (mid + 1) hi
    else lo

/-- `bisect.insort(a, x)`: insert at the `bisect_right` position. -/
def insort (a : List (ℚ × String)) (x : ℚ × String) : List (ℚ × String) :=
  let i := bisectLoopR a x (a.length + 1) 0 a.length
  a.take i ++ [x] ++ a.drop i

/-- The per-pair loop state of `zset_add`: the working copies of
`scores` and `ranked` plus the `added` and `changed` counters. -/
structure ZAddState where
  scores : List (String × ℚ)
  ranked : List (ℚ × String)
  added : Nat
  changed : Nat
  deriving DecidableEq

/-- One iteration of the `for member, score in member_score_pairs` loop
of `zset_add`, flags as in the source.  Note the source `insort`s the
`(score, member)` pair *unconditionally* once gating passes — also when
the member already holds exactly this score. -/
def zadd_step (nx xx gt lt : Bool) (st : ZAddState) (p : String × ℚ) : ZAddState :=
  let member := p.1
  let score := p.2
  match pyGet st.scores member with
  | none =>
    if xx then st
    else
      { scores := pyInsert st.scores member score,
        ranked := insort st.ranked (score, member),
        added := st.added + 1, changed := st.changed + 1 }
  | some existing_score =>
    if nx then st
    else if gt && decide (score ≤ existing_score) then st
    else if lt && decide (existing_score ≤ score) then st
    else if decide (score ≠ existing_score) then
      let old_key := (existing_score, member)
      let idx := bisect_left st.ranked old_key
      let ranked' :=
        if idx < st.ranked.length ∧ st.ranked.getD idx (0, "") = old_key then
          st.ranked.eraseIdx idx
        else st.ranked
      { scores := pyInsert st.scores member score,
        ranked := insort ranked' (score, member),
        added := st.added, changed := st.changed + 1 }
    else
      { scores := pyInsert st.scores member score,
        ranked := insort st.ranked (score, member),
        added := st.added, changed := st.changed }

/-- `zset_add` of zset_store.py.  The final `_put_zset` runs
unconditionally, even when no pair survived the gating on a missing
key. -/
def zset_add (now : ℚ) (store : Store) (key : String) (pairs : List (String × ℚ))
    (nx xx gt lt ch : Bool) : Store × IntOrErr :=
  match get_zset now store key with
  | .err e => (store, .err e)
  | g =>
    let z0 := match g with | .found z => z | _ => (⟨[], []⟩ : ZSet)
    let st := pairs.foldl (zadd_step nx xx gt lt)
      ⟨z0.scores, z0.ranked, 0, 0⟩
    let new_store := put_zset store key ⟨st.scores, st.ranked⟩
    (new_store, .int (if ch then st.changed else st.added))

/-- One iteration of the member loop of `zset_rem`. -/
def zrem_step (st : ZAddState) (member : String) : ZAddState :=
  match pyGet st.scores member with
  | none => st
  | some score =>
    let old_key := (score, member)
    let idx := bisect_left st.ranked old_key
    let ranked' :=
      if idx < st.ranked.length ∧ st.ranked.getD idx (0, "") = old_key then
        st.ranked.eraseIdx idx
      else st.ranked
    { scores := pyRemoveKey st.scores member, ranked := ranked',
      added := st.added + 1, changed := st.changed }

/-- `zset_rem` of zset_store.py (the `added` slot of the loop state
holds the `removed` counter).  Deletes the key when the set empties. -/
def zset_rem (now : ℚ) (store : Store) (key : String) (members : List String) :
    Store × IntOrErr :=
  match get_zset now store key with
  | .err e => (store, .err e)
  | .missing => (store, .int 0)
  | .found z =>
    let st := members.foldl zrem_step ⟨z.scores, z.ranked, 0, 0⟩
    if st.scores = [] then (pyRemoveKey store key, .int st.added)
    else (put_zset store key ⟨st.scores, st.ranked⟩, .int st.added)

/-- `float | str` results (`zset_incrby`). -/
inductive RatOrErr : Type where
  | rat (q : ℚ) : RatOrErr
  | err (s : String) : RatOrErr
  deriving DecidableEq

/-- `zset_incrby` of zset_store.py: reads the current score (default
`0.0`), then delegates to `zset_add` without flags. -/
def zset_incrby (now : ℚ) (store : Store) (key : String) (member : String) (increment : ℚ) :
    Store × RatOrErr :=
  match get_zset now store key with
  | .err e => (store, .err e)
  | g =>
    let z0 := match g with | .found z => z | _ => (⟨[], []⟩ : ZSet)
    let current := (pyGet z0.scores member).getD 0
    let new_score := current + increment
    match zset_add now store key [(member, new_score)] false false false false false with
    | (_, .err e) => (store, .err e)
    | (new_store, .int _) => (new_store, .rat new_score)

/-- `float | None | str` results (`zset_score`). -/
inductive ZScoreRes : Type where
  | score (q : ℚ) : ZScoreRes
  | nil : ZScoreRes
  | err (s : String) : ZScoreRes
  deriving DecidableEq

/-- `zset_score` of zset_store.py. -/
def zset_score (now : ℚ) (store : Store) (key : String) (member : String) : ZScoreRes :=
  match get_zset now store key with
  | .err e => .err e
  | .missing => .nil
  | .found z =>
    match pyGet z.scores member with
    | none => .nil
    | some q => .score q

/-- `_format_score` of zset_store.py.  The `isinf` branch cannot fire in
the rational model; `score == int(score)` is `den = 1`, rendered without
a decimal point; otherwise `repr(score)`, modelled by `pyStrFloat`. -/
def format_score (q : ℚ) : String :=
  if q.den = 1 then toString q.num else pyStrFloat q

/- ------------------------------------------------------------------ -/
/- commands.py / hash_commands.py / zset_commands.py                   -/
/- ------------------------------------------------------------------ -/

/-- The RESP replies the modelled handlers build.  `bulkv` is the
`BulkString` dataclass: `handle_get` stuffs the raw stored value into
it (the source performs no type check there), the other handlers wrap
strings. -/
inductive CmdReply : Type where
  | simple (s : String) : CmdReply
  | err (s : String) : CmdReply
  | int (n : Int) : CmdReply
  | bulkv (v : Option Value) : CmdReply
  deriving DecidableEq

/-- The `OK` simple-string constant of commands.py. -/
def OK : CmdReply := .simple "OK"

/-- `handle_get` of commands.py: no type check — returns
`BulkString(entry.value if entry else None)`. -/
def handle_get (now : ℚ) (store : Store) (args : List String) : CmdReply :=
  match args with
  | [] => .err "ERR wrong number of arguments for GET"
  | key :: _ =>
    match store_get now store key with
    | none => .bulkv none
    | some e => .bulkv (some e.value)

/-- The option-dict comprehension of `handle_set`:
`{args[i].upper(): args[i+1] for i in range(2, len(args) - 1, 2)}`,
here applied to `args[2:]`. -/
def pairUpUpper : List String → List (String × String)
  | a :: b :: rest => (pyUpper a, b) :: pairUpUpper rest
  | _ => []

/-- `handle_set` of commands.py.  `none` models the uncaught
`ValueError` a malformed EX/PX float raises. -/
def handle_set (now : ℚ) (store : Store) (args : List String) : Option (Store × CmdReply) :=
  match args with
  | key :: value :: rest =>
    let opts := (pairUpUpper rest).foldl (fun d p => pyInsert d p.1 p.2) []
    match pyGet opts "EX" with
    | some exs => (pyParseFloat exs).map
        (fun q => (store_set now store key (.str value) (some q), OK))
    | none =>
      match pyGet opts "PX" with
      | some pxs => (pyParseFloat pxs).map
          (fun q => (store_set now store key (.str value) (some (q / 1000)), OK))
      | none => some (store_set now store key (.str value) none, OK)
  | _ => some (store, .err "ERR wrong number of arguments for SET")

/-- `handle_ttl` of commands.py. -/
def handle_ttl (now : ℚ) (store : Store) (args : List String) : CmdReply :=
  match args with
  | [] => .err "ERR wrong number of arguments for TTL"
  | key :: _ => .int (store_ttl now store key)

/-- `handle_hget` of hash_commands.py. -/
def handle_hget (now : ℚ) (store : Store) (args : List String) : CmdReply :=
  match args with
  | [key, field] =>
    match hash_get now store key field with
    | some s => if pyStartsWith s "WRONGTYPE" then .err s else .bulkv (some (.str s))
    | none => .bulkv none
  | _ => .err "ERR wrong number of arguments for HGET"

/-- Consecutive pairing of `handle_hset`'s field/value tail. -/
def pairsOf : List String → List (String × String)
  | a :: b :: rest => (a, b) :: pairsOf rest
  | _ => []

/-- `handle_hset` of hash_commands.py. -/
def handle_hset (now : ℚ) (store : Store) (args : List String) : Store × CmdReply :=
  if args.length < 3 ∨ args.length % 2 = 0 then
    (store, .err "ERR wrong number of arguments for HSET")
  else
    match args with
    | key :: rest =>
      match hash_set now store key (pairsOf rest) with
      | (new_store, .err e) => (new_store, .err e)
      | (new_store, .int n) => (new_store, .int n)
    | [] => (store, .err "ERR wrong number of arguments for HSET")

/-- The flag-consuming loop of `handle_zadd` (`NX XX GT LT CH`). -/
def zadd_flags : List String → Bool → Bool → Bool → Bool → Bool →
    (Bool × Bool × Bool × Bool × Bool) × List String
  | [], nx, xx, gt, lt, ch => ((nx, xx, gt, lt, ch), [])
  | a :: rest, nx, xx, gt, lt, ch =>
    let u := pyUpper a
    if u = "NX" then zadd_flags rest true xx gt lt ch
    else if u = "XX" then zadd_flags rest nx true gt lt ch
    else if u = "GT" then zadd_flags rest nx xx true lt ch
    else if u = "LT" then zadd_flags rest nx xx gt true ch
    else if u = "CH" then zadd_flags rest nx xx gt lt true
    else ((nx, xx, gt, lt, ch), a :: rest)

/-- The score/member pair construction of `handle_zadd`:
`[(tail[j + 1], float(tail[j])) for j in range(0, len(tail), 2)]`;
`none` is the `ValueError` → `ERR value is not a valid float` path. -/
def zadd_pairs : List String → Option (List (String × ℚ))
  | [] => some []
  | [_] => none
  | a :: b :: rest =>
    match pyParseFloat a with
    | none => none
    | some q => (zadd_pairs rest).map (fun l => (b, q) :: l)

/-- `handle_zadd` of zset_commands.py. -/
def handle_zadd (now : ℚ) (store : Store) (args : List String) : Store × CmdReply :=
  if args.length < 3 then (store, .err "ERR wrong number of arguments for ZADD")
  else
    match args with
    | key :: rest =>
      let fr := zadd_flags rest false false false false false
      let nx := fr.1.1
      let xx := fr.1.2.1
      let gt := fr.1.2.2.1
      let lt := fr.1.2.2.2.1
      let ch := fr.1.2.2.2.2
      if nx && xx then
        (store, .err "ERR XX and NX options at the same time are not compatible")
      else if gt && lt then
        (store, .err "ERR GT and LT options at the same time are not compatible")
      else if nx && (gt || lt) then
        (store, .err "ERR GT, LT, and NX options at the same time are not compatible")
      else
        let tail := fr.2
        if tail.length < 2 ∨ tail.length % 2 ≠ 0 then (store, .err "ERR syntax error")
        else
          match zadd_pairs tail with
          | none => (store, .err "ERR value is not a valid float")
          | some pairs =>
            match zset_add now store key pairs nx xx gt lt ch with
            | (new_store, .err e) => (new_store, .err e)
            | (new_store, .int n) => (new_store, .int n)
    | [] => (store, .err "ERR wrong number of arguments for ZADD")

/-- `handle_zincrby` of zset_commands.py: wraps the new score with
`str(result)` (Python float `str`), not `_format_score`. -/
def handle_zincrby (now : ℚ) (store : Store) (args : List String) : Store × CmdReply :=
  match args with
  | [key, increment_raw, member] =>
    match pyParseFloat increment_raw with
    | none => (store, .err "ERR value is not a valid float")
    | some inc =>
      match zset_incrby now store key member inc with
      | (new_store, .err e) => (new_store, .err e)
      | (new_store, .rat q) => (new_store, .bulkv (some (.str (pyStrFloat q))))
  | _ => (store, .err "ERR wrong number of arguments for ZINCRBY")

/-- `handle_zscore` of zset_commands.py. -/
def handle_zscore (now : ℚ) (store : Store) (args : List String) : CmdReply :=
  match args with
  | [key, member] =>
    match zset_score now store key member with
    | .err e => if pyStartsWith e "WRONGTYPE" then .err e else .bulkv (some (.str e))
    | .score q => .bulkv (some (.str (pyStrFloat q)))
    | .nil => .bulkv none
  | _ => .err "ERR wrong number of arguments for ZSCORE"

/- ------------------------------------------------------------------ -/
/- Dict lemmas                                                         -/
/- ------------------------------------------------------------------ -/

theorem pyGet_pyInsert_self {K V : Type} [DecidableEq K] (d : List (K × V)) (k : K) (v : V) :
    pyGet (pyInsert d k v) k = some v := by
  induction d with
  | nil => simp [pyInsert, pyGet]
  | cons p rest ih =>
    by_cases h : p.1 = k
    · simp [pyInsert, h, pyGet]
    · simp [pyInsert, h, pyGet, ih]

theorem pyGet_pyRemoveKey_self {K V : Type} [DecidableEq K] (d : List (K × V)) (k : K) :
    pyGet (pyRemoveKey d k) k = none := by
  induction d with
  | nil => rfl
  | cons p rest ih =>
    by_cases h : p.1 = k
    · simpa [pyRemoveKey, h] using ih
    · simpa [pyRemoveKey, pyGet, h] using ih

theorem pyGet_of_mem_nodup {V : Type} (store : List (String × V)) (k : String) (v : V)
    (hnd : (store.map Prod.fst).Nodup) (hm : (k, v) ∈ store) : pyGet store k = some v := by
  induction store with
  | nil => simp at hm
  | cons p rest ih =>
    simp only [List.map_cons, List.nodup_cons] at hnd
    rcases List.mem_cons.mp hm with he | hm'
    · rw [← he]
      simp [pyGet]
    · have hne : p.1 ≠ k := by
        intro hc
        exact hnd.1 (by simpa [hc] using List.mem_map_of_mem Prod.fst hm')
      simp [pyGet, hne, ih hnd.2 hm']

theorem pyGet_filter_keys_none (store : Store) (keys : List String) (k : String)
    (hk : k ∈ keys) : pyGet (store.filter (fun p => !keys.contains p.1)) k = none := by
  induction store with
  | nil => rfl
  | cons p rest ih =>
    by_cases hm : p.1 ∈ keys
    · rw [List.filter_cons_of_neg (by simpa using hm)]
      exact ih
    · rw [List.filter_cons_of_pos (by simpa using hm)]
      have hne : p.1 ≠ k := fun hc => hm (hc ▸ hk)
      simpa [pyGet, hne] using ih

/-- Truncation of a negative rational is nonpositive. -/
theorem pyTrunc_nonpos (q : ℚ) (h : q < 0) : pyTrunc q ≤ 0 := by
  have hnum : q.num < 0 := Rat.num_neg.mpr h
  have hden : (0 : Int) < q.den := by
    have := q.den_nz
    omega
  rw [pyTrunc]
  have h1 : 0 ≤ (-q.num).tdiv q.den := Int.tdiv_nonneg (by omega) (by omega)
  have h2 : (-q.num).tdiv q.den = -(q.num.tdiv q.den) := Int.neg_tdiv _ _
  omega

/- ------------------------------------------------------------------ -/
/- Claim-level predicates and helpers                                  -/
/- ------------------------------------------------------------------ -/

/-- Strict sortedness of `ranked` under the Python tuple order. -/
def rankedStrictSorted : List (ℚ × String) → Bool
  | [] => true
  | [_] => true
  | a :: b :: rest => pairLt a b && rankedStrictSorted (b :: rest)

/-- The structural sorted-set invariant of the specification:
equal sizes, `scores[m] == s` for each ranked pair, strict sortedness. -/
def zsetInvariant (z : ZSet) : Prop :=
  z.scores.length = z.ranked.length ∧
  (∀ p ∈ z.ranked, pyGet z.scores p.2 = some p.1) ∧
  rankedStrictSorted z.ranked = true

instance (z : ZSet) : Decidable (zsetInvariant z) := by
  unfold zsetInvariant
  infer_instance

/-- Value-kind discriminator (`isinstance(v, dict)` of the source). -/
def Value.isHash : Value → Bool
  | .hash _ => true
  | _ => false

/-- Value-kind discriminator (`isinstance(v, SortedSet)` of the source). -/
def Value.isZset : Value → Bool
  | .zset _ => true
  | _ => false

/-- The `zset = zset or _make_zset()` idiom: the scores dict the write
path starts from. -/
def zsetScoresOf (now : ℚ) (store : Store) (key : String) : List (String × ℚ) :=
  match get_zset now store key with
  | .found z => z.scores
  | _ => []

/-- The ranked list the write path starts from (see `zsetScoresOf`). -/
def zsetRankedOf (now : ℚ) (store : Store) (key : String) : List (ℚ × String) :=
  match get_zset now store key with
  | .found z => z.ranked
  | _ => []

theorem pyGet_put_hash (store : Store) (k : String) (inner : List (String × String))
    (e : StoreEntry) (he : pyGet store k = some e) :
    pyGet (put_hash store k inner) k = some ⟨.hash inner, e.expires_at⟩ := by
  simp [put_hash, he, pyGet_pyInsert_self]

theorem pyGet_put_zset (store : Store) (k : String) (z : ZSet)
    (e : StoreEntry) (he : pyGet store k = some e) :
    pyGet (put_zset store k z) k = some ⟨.zset z, e.expires_at⟩ := by
  simp [put_zset, he, pyGet_pyInsert_self]

/- ------------------------------------------------------------------ -/
/- Claims                                                              -/
/- ------------------------------------------------------------------ -/

/-- C1: the specification's structural invariant for sorted sets fails
on the code.  Re-adding member `m` with its unchanged score `5`
re-`insort`s the `(5, m)` pair without removing the old one (the
`insort` in `zset_add` runs unconditionally once gating passes), so
after `ZADD k 5 m; ZADD k 5 m` the stored set has one `scores` entry
but two `ranked` entries and violates every part of the invariant's
size/strictness clauses. -/
theorem c1_zadd_readd_breaks_invariant :
    pyGet (zset_add 100 (zset_add 100 [] "k" [("m", 5)] false false false false false).1
        "k" [("m", 5)] false false false false false).1 "k" =
      some ⟨.zset ⟨[("m", 5)], [(5, "m"), (5, "m")]⟩, none⟩ ∧
    ¬zsetInvariant ⟨[("m", 5)], [(5, "m"), (5, "m")]⟩ := by decide

/-- C2 (counterexample): the bulk string `"é"` (codepoint 233) is
constructible from the RESP grammar — parsing the byte frame
`$2\r\n<C3 A9>\r\n` yields it — yet `parse(serialize(v))` does not
return `(v, empty)`: the serializer writes the *character* count 1 as
the byte length, so the parser slices one byte of the two-byte UTF-8
sequence and the decode fails (`none`). -/
theorem c2_roundtrip_counterexample :
    parse [36, 50, 13, 10, 195, 169, 13, 10] = some (.bulk (some [233]), []) ∧
    parse (serialize (.bulk (some [233]))) = none := by decide

/-- C2 (amended): `parse(serialize(v))` returns `(v, empty)` for every
value constructible from the RESP grammar whose bulk-string payloads
are ASCII (for non-ASCII payloads the serializer's character-count
length breaks the round trip) and whose simple/error strings are
encodable without an embedded CR LF. -/
theorem c2_parse_serialize_roundtrip (v : RESPv) (h : wfv v = true) :
    parse (serialize v) = some (v, []) := by
  have h0 := parseF_serialize v [] ((serialize v).length + 1) h (by simp)
  rw [List.append_nil] at h0
  rw [parse]
  exact h0

theorem c2_parse_serialize_roundtrip_witness :
    wfv (.array (.cons (.simple [79, 75]) (.cons (.bulk (some [97, 13, 10, 98]))
      (.cons (.int (-42)) (.cons (.bulk none) (.cons (.array .nil) .nil)))))) = true ∧
    parse (serialize (.array (.cons (.simple [79, 75]) (.cons (.bulk (some [97, 13, 10, 98]))
      (.cons (.int (-42)) (.cons (.bulk none) (.cons (.array .nil) .nil))))))) =
      some (.array (.cons (.simple [79, 75]) (.cons (.bulk (some [97, 13, 10, 98]))
        (.cons (.int (-42)) (.cons (.bulk none) (.cons (.array .nil) .nil))))), []) :=
  ⟨by decide, c2_parse_serialize_roundtrip _ (by decide)⟩

/-- C4: the hash direction holds, but `zset_add` calls `_put_zset`
unconditionally, so `ZADD s XX 1 m` on a missing key binds `s` to an
*empty* sorted set (return value 0), which `EXISTS` then counts — the
key-exists-iff-nonempty invariant fails on the code. -/
theorem c4_zadd_xx_leaves_empty_zset :
    zset_add 100 [] "s" [("m", 1)] false true false false false =
      ([("s", ⟨.zset ⟨[], []⟩, none⟩)], .int 0) ∧
    store_exists 100 [("s", ⟨.zset ⟨[], []⟩, none⟩)] ["s"] = 1 ∧
    pyGet (zset_add 100 [] "s" [("m", 1)] false true false false false).1 "s" =
      some ⟨.zset ⟨[], []⟩, none⟩ := by decide

/-- C8: the ZADD GT gating scenario behaves exactly as specified:
`ZADD s 5 m` → 1; `ZADD s GT 3 m` → 0 leaving the state (and m's score
5) unchanged; `ZADD s GT 9 m` → 0 without CH but updates the score to
9; the same ZADD with CH returns 1. -/
theorem c8_zadd_gt_gating :
    (handle_zadd 100 [] ["s", "5", "m"]).2 = .int 1 ∧
    (handle_zadd 100 (handle_zadd 100 [] ["s", "5", "m"]).1 ["s", "GT", "3", "m"]) =
      ((handle_zadd 100 [] ["s", "5", "m"]).1, .int 0) ∧
    zset_score 100 (handle_zadd 100 (handle_zadd 100 [] ["s", "5", "m"]).1
      ["s", "GT", "3", "m"]).1 "s" "m" = .score 5 ∧
    (handle_zadd 100 (handle_zadd 100 [] ["s", "5", "m"]).1 ["s", "GT", "9", "m"]).2 =
      .int 0 ∧
    zset_score 100 (handle_zadd 100 (handle_zadd 100 [] ["s", "5", "m"]).1
      ["s", "GT", "9", "m"]).1 "s" "m" = .score 9 ∧
    (handle_zadd 100 (handle_zadd 100 [] ["s", "5", "m"]).1 ["s", "GT", "CH", "9", "m"]).2 =
      .int 1 := by decide

/-- C3 (counterexample): a physically present but expired key does
*not* get TTL −2: `store_ttl` reads the raw dict (`store.get`, not
`store_get`), finds the entry, and returns the clamped remaining time
`max(0, int(remaining))` = 0. -/
theorem c3_ttl_expired_counterexample :
    store_ttl 100 [("k", ⟨.str "v", some 50⟩)] "k" = 0 ∧
    store_ttl 100 [("k", ⟨.str "v", some 50⟩)] "k" ≠ -2 := by
  have h1 : ((50 : ℚ)) - 100 < 0 := by norm_num
  have h2 := pyTrunc_nonpos _ h1
  have h3 : store_ttl 100 [("k", ⟨.str "v", some 50⟩)] "k" =
      max 0 (pyTrunc ((50 : ℚ) - 100)) := by
    simp [store_ttl, pyGet]
  rw [h3]
  omega

/-- C3 (amended): for a physically present key whose `expires_at` lies
in the past, GET answers nil, EXISTS counts 0, KEYS `*` omits the key —
but TTL returns 0 (the clamp of the negative remainder via the raw
lookup), not −2 as the claim states. -/
theorem c3_expired_key_reads (now t : ℚ) (store : Store) (k : String) (e : StoreEntry)
    (hnd : (store.map Prod.fst).Nodup)
    (h : pyGet store k = some e) (hexp : e.expires_at = some t) (ht : t < now) :
    handle_get now store [k] = .bulkv none ∧
    store_exists now store [k] = 0 ∧
    store_ttl now store k = 0 ∧
    k ∉ store_keys now store "*" := by
  have hsg : store_get now store k = none := by
    simp only [store_get, h, hexp, if_pos (show now > t from ht)]
  refine ⟨?_, ?_, ?_, ?_⟩
  · simp [handle_get, hsg]
  · simp [store_exists, hsg]
  · have h2 := pyTrunc_nonpos (t - now) (by linarith)
    have h3 : store_ttl now store k = max 0 (pyTrunc (t - now)) := by
      simp [store_ttl, h, hexp]
    rw [h3]
    omega
  · intro hmem
    obtain ⟨p, hpf, hpk⟩ := List.mem_map.mp hmem
    obtain ⟨hps, hcond⟩ := List.mem_filter.mp hpf
    have hpe : (k, p.2) ∈ store := by
      have : p = (k, p.2) := by
        cases p
        simp at hpk ⊢
        exact hpk
      rw [← this]
      exact hps
    have := pyGet_of_mem_nodup store k p.2 hnd hpe
    rw [h] at this
    have hpe2 : p.2 = e := by
      injection this with hv
      exact hv.symm
    rw [hpe2, hexp] at hcond
    simp at hcond
    linarith

/-- C9: on a physically present but expired key, DEL counts raw
presence and returns 1 (removing the stale entry) while EXISTS on the
same state, going through the TTL-aware `store_get`, returns 0. -/
theorem c9_del_counts_expired (now t : ℚ) (store : Store) (k : String) (e : StoreEntry)
    (h : pyGet store k = some e) (hexp : e.expires_at = some t) (ht : t < now) :
    (store_delete store [k]).2 = 1 ∧
    pyGet (store_delete store [k]).1 k = none ∧
    store_exists now store [k] = 0 := by
  have hsg : store_get now store k = none := by
    simp only [store_get, h, hexp, if_pos (show now > t from ht)]
  refine ⟨?_, ?_, ?_⟩
  · simp [store_delete, h]
  · exact pyGet_filter_keys_none store [k] k (by simp)
  · simp [store_exists, hsg]

/-- C10: HSET on a physically present but expired hash key starts from
an empty field map (the TTL-aware `_get_hash` reports the key missing),
writes exactly the new pairs, yet `_put_hash` copies the *stale*
`expires_at` from the raw entry — so the freshly written hash is
already expired and the immediately following HGET returns nil. -/
theorem c10_hset_on_expired (now t : ℚ) (store : Store) (k f v : String)
    (h0 : List (String × String))
    (h : pyGet store k = some ⟨.hash h0, some t⟩) (ht : t < now) :
    hash_set now store k [(f, v)] = (pyInsert store k ⟨.hash [(f, v)], some t⟩, .int 1) ∧
    hash_get now (hash_set now store k [(f, v)]).1 k f = none := by
  have hsg : store_get now store k = none := by
    simp only [store_get, h, if_pos (show now > t from ht)]
  have hgh : get_hash now store k = .missing := by
    simp only [get_hash, hsg]
  have hmain : hash_set now store k [(f, v)] =
      (pyInsert store k ⟨.hash [(f, v)], some t⟩, .int 1) := by
    simp only [hash_set, hgh]
    simp [put_hash, h, pyGet, pyInsert]
  refine ⟨hmain, ?_⟩
  rw [hmain]
  have hsg2 : store_get now (pyInsert store k ⟨.hash [(f, v)], some t⟩) k = none := by
    simp only [store_get, pyGet_pyInsert_self, if_pos (show now > t from ht)]
  simp [hash_get, get_hash, hsg2]

/-- C5 (counterexample): GET on a key holding a hash does *not* return
the WRONGTYPE error the claim demands — `handle_get` has no type check
and wraps the raw stored dict in the BulkString reply. -/
theorem c5_get_wrongtype_counterexample :
    handle_get 100 [("k", ⟨.hash [("f", "v")], none⟩)] ["k"] =
      .bulkv (some (.hash [("f", "v")])) ∧
    handle_get 100 [("k", ⟨.hash [("f", "v")], none⟩)] ["k"] ≠ .err wrong_type := by
  decide

/-- C5 (amended): hash commands on a live key of a non-hash kind and
sorted-set commands on a live key of a non-zset kind return the
WRONGTYPE error and leave the keyspace unchanged; but the string-family
GET performs no type check at all — it returns the raw stored value in
a BulkString. -/
theorem c5_wrongtype_discipline (now : ℚ) (store : Store) (k f v m : String) (e : StoreEntry)
    (pairs : List (String × String)) (zpairs : List (String × ℚ)) (nx xx gt lt ch : Bool)
    (hlive : store_get now store k = some e) :
    (e.value.isHash = false →
      handle_hget now store [k, f] = .err wrong_type ∧
      handle_hset now store [k, f, v] = (store, .err wrong_type) ∧
      hash_set now store k pairs = (store, .err wrong_type) ∧
      hash_del now store k [f] = (store, .err wrong_type)) ∧
    (e.value.isZset = false →
      handle_zscore now store [k, m] = .err wrong_type ∧
      zset_add now store k zpairs nx xx gt lt ch = (store, .err wrong_type) ∧
      zset_rem now store k [m] = (store, .err wrong_type) ∧
      zset_incrby now store k m 1 = (store, .err wrong_type)) ∧
    handle_get now store [k] = .bulkv (some e.value) := by
  refine ⟨?_, ?_, ?_⟩
  · intro hnh
    have hgh : get_hash now store k = .err wrong_type := by
      cases hv : e.value with
      | hash h1 => rw [hv] at hnh; simp [Value.isHash] at hnh
      | str s => simp [get_hash, hlive, hv]
      | zset z => simp [get_hash, hlive, hv]
    refine ⟨?_, ?_, ?_, ?_⟩
    · simp [handle_hget, hash_get, hgh,
        show pyStartsWith wrong_type "WRONGTYPE" = true from by decide]
    · simp [handle_hset, hash_set, hgh]
    · simp [hash_set, hgh]
    · simp [hash_del, hgh]
  · intro hnz
    have hgz : get_zset now store k = .err wrong_type := by
      cases hv : e.value with
      | zset z => rw [hv] at hnz; simp [Value.isZset] at hnz
      | str s => simp [get_zset, hlive, hv]
      | hash h1 => simp [get_zset, hlive, hv]
    refine ⟨?_, ?_, ?_, ?_⟩
    · simp [handle_zscore, zset_score, hgz,
        show pyStartsWith wrong_type "WRONGTYPE" = true from by decide]
    · simp [zset_add, hgz]
    · simp [zset_rem, hgz]
    · simp [zset_incrby, hgz]
  · simp [handle_get, hlive]

theorem c5_wrongtype_discipline_witness :
    store_get 100 [("k", ⟨.str "v", none⟩)] "k" = some ⟨.str "v", none⟩ ∧
    (handle_hget 100 [("k", ⟨.str "v", none⟩)] ["k", "f"] = .err wrong_type ∧
      handle_hset 100 [("k", ⟨.str "v", none⟩)] ["k", "f", "v"] =
        ([("k", ⟨.str "v", none⟩)], .err wrong_type) ∧
      hash_set 100 [("k", ⟨.str "v", none⟩)] "k" [("f", "v")] =
        ([("k", ⟨.str "v", none⟩)], .err wrong_type) ∧
      hash_del 100 [("k", ⟨.str "v", none⟩)] "k" ["f"] =
        ([("k", ⟨.str "v", none⟩)], .err wrong_type)) ∧
    (handle_zscore 100 [("k", ⟨.str "v", none⟩)] ["k", "m"] = .err wrong_type ∧
      zset_add 100 [("k", ⟨.str "v", none⟩)] "k" [("m", 1)] false false false false false =
        ([("k", ⟨.str "v", none⟩)], .err wrong_type) ∧
      zset_rem 100 [("k", ⟨.str "v", none⟩)] "k" ["m"] =
        ([("k", ⟨.str "v", none⟩)], .err wrong_type) ∧
      zset_incrby 100 [("k", ⟨.str "v", none⟩)] "k" "m" 1 =
        ([("k", ⟨.str "v", none⟩)], .err wrong_type)) ∧
    handle_get 100 [("k", ⟨.str "v", none⟩)] ["k"] = .bulkv (some (.str "v")) :=
  have h := c5_wrongtype_discipline 100 [("k", ⟨.str "v", none⟩)] "k" "f" "v" "m"
    ⟨.str "v", none⟩ [("f", "v")] [("m", 1)] false false false false false (by decide)
  ⟨by decide, h.1 (by decide), h.2.1 (by decide), h.2.2⟩

/-- Behaviour of ZINCRBY when the member is absent (key missing, or
present zset without the member): the handler installs the member at
score `0 + Δ` and replies with `str(new_score)` — Python float `str`,
modelled by `pyStrFloat`. -/
theorem zincrby_reply_fresh (now : ℚ) (store : Store) (k draw m : String) (q : ℚ)
    (hq : pyParseFloat draw = some q) (habs : zset_score now store k m = .nil) :
    handle_zincrby now store [k, draw, m] =
      (put_zset store k ⟨pyInsert (zsetScoresOf now store k) m (0 + q),
        insort (zsetRankedOf now store k) (0 + q, m)⟩,
       .bulkv (some (.str (pyStrFloat (0 + q))))) := by
  cases hg : get_zset now store k with
  | err s => simp [zset_score, hg] at habs
  | missing =>
    simp only [handle_zincrby, hq, zset_incrby, hg, zset_add, zsetScoresOf, zsetRankedOf]
    simp [zadd_step, pyGet]
  | found z =>
    cases hpm : pyGet z.scores m with
    | some q' => simp [zset_score, hg, hpm] at habs
    | none =>
      simp only [handle_zincrby, hq, zset_incrby, hg, zset_add, zsetScoresOf, zsetRankedOf]
      simp [zadd_step, hpm]

/-- C6 (amended): `ZINCRBY k Δ m` with `m` absent creates the member at
score `0 + Δ` (the new scores dict maps `m` to it), but the reply is
`str(new_score)` — Python's float `str`, with a trailing `.0` on
integral scores — not the shared `_format_score` rule the claim
states. -/
theorem c6_zincrby_creates_member (now : ℚ) (store : Store) (k draw m : String) (q : ℚ)
    (hq : pyParseFloat draw = some q) (habs : zset_score now store k m = .nil) :
    handle_zincrby now store [k, draw, m] =
      (put_zset store k ⟨pyInsert (zsetScoresOf now store k) m (0 + q),
        insort (zsetRankedOf now store k) (0 + q, m)⟩,
       .bulkv (some (.str (pyStrFloat (0 + q))))) ∧
    pyGet (pyInsert (zsetScoresOf now store k) m (0 + q)) m = some (0 + q) :=
  ⟨zincrby_reply_fresh now store k draw m q hq habs, pyGet_pyInsert_self _ _ _⟩

theorem c6_zincrby_creates_member_witness :
    (pyParseFloat "5" = some 5 ∧ zset_score 100 [] "k" "m" = .nil) ∧
    (handle_zincrby 100 [] ["k", "5", "m"] =
      (put_zset [] "k" ⟨pyInsert (zsetScoresOf 100 [] "k") "m" (0 + 5),
        insort (zsetRankedOf 100 [] "k") (0 + 5, "m")⟩,
       .bulkv (some (.str (pyStrFloat (0 + 5))))) ∧
     pyGet (pyInsert (zsetScoresOf 100 [] "k") "m" (0 + 5)) "m" = some (0 + 5)) :=
  ⟨⟨by decide, by decide⟩,
    c6_zincrby_creates_member 100 [] "k" "5" "m" 5 (by decide) (by decide)⟩

/-- C6 (counterexample): `ZINCRBY k 5 m` on a fresh key replies with
the bulk string `"5.0"` (`str(5.0)`), while the shared score-formatting
rule `_format_score` renders the score 5 as `"5"` — the claim's
formatting statement fails on the code. -/
theorem c6_zincrby_formatting_counterexample :
    (handle_zincrby 100 [] ["k", "5", "m"]).2 = .bulkv (some (.str "5.0")) ∧
    (handle_zincrby 100 [] ["k", "5", "m"]).2 ≠ .bulkv (some (.str (format_score 5))) := by
  have h := zincrby_reply_fresh 100 [] "k" "5" "m" 5 (by decide) (by decide)
  rw [h]
  have h05 : (0 : ℚ) + 5 = 5 := by norm_num
  rw [h05]
  rw [show pyStrFloat 5 = "5.0" from by decide, show format_score 5 = "5" from by decide]
  refine ⟨rfl, by decide⟩

/-- C7: SET with EX installs `now + ttl` as the new `expires_at`, SET
with PX installs `now + ttl/1000`, SET without a TTL option writes
`expires_at = None` (clearing any previous expiry); and every hash
mutation (HSET, HSETNX, HDEL, HINCRBY, HINCRBYFLOAT) and every
sorted-set mutation (ZADD, ZREM, ZINCRBY) on a raw-present key leaves
that key's `expires_at` exactly as it was — unless the operation
removes the emptied key altogether (HDEL of the last field, ZREM of the
last member), in which case the key is gone. -/
theorem c7_expiry_frame (now : ℚ) (store : Store) (k v exs pxs f fv m : String)
    (q qp : ℚ) (e : StoreEntry) (pairs : List (String × String)) (fields : List String)
    (n : Int) (r zinc : ℚ) (zpairs : List (String × ℚ)) (nx xx gt lt ch : Bool)
    (zmembers : List String)
    (hq : pyParseFloat exs = some q) (hqp : pyParseFloat pxs = some qp)
    (he : pyGet store k = some e) :
    handle_set now store [k, v, "EX", exs] =
      some (pyInsert store k ⟨.str v, some (now + q)⟩, OK) ∧
    handle_set now store [k, v, "PX", pxs] =
      some (pyInsert store k ⟨.str v, some (now + qp / 1000)⟩, OK) ∧
    handle_set now store [k, v] = some (pyInsert store k ⟨.str v, none⟩, OK) ∧
    (pyGet (hash_set now store k pairs).1 k).map StoreEntry.expires_at =
      some e.expires_at ∧
    (pyGet (hash_setnx now store k f fv).1 k).map StoreEntry.expires_at =
      some e.expires_at ∧
    ((pyGet (hash_del now store k fields).1 k).map StoreEntry.expires_at =
        some e.expires_at ∨
      pyGet (hash_del now store k fields).1 k = none) ∧
    (pyGet (hash_incrby now store k f n).1 k).map StoreEntry.expires_at =
      some e.expires_at ∧
    (pyGet (hash_incrbyfloat now store k f r).1 k).map StoreEntry.expires_at =
      some e.expires_at ∧
    (pyGet (zset_add now store k zpairs nx xx gt lt ch).1 k).map StoreEntry.expires_at =
      some e.expires_at ∧
    ((pyGet (zset_rem now store k zmembers).1 k).map StoreEntry.expires_at =
        some e.expires_at ∨
      pyGet (zset_rem now store k zmembers).1 k = none) ∧
    (pyGet (zset_incrby now store k m zinc).1 k).map StoreEntry.expires_at =
      some e.expires_at := by
  refine ⟨?_, ?_, ?_, ?_, ?_, ?_, ?_, ?_, ?_, ?_, ?_⟩
  · simp [handle_set, pairUpUpper, show pyUpper "EX" = "EX" from by decide, pyInsert,
      pyGet, hq, store_set]
  · simp [handle_set, pairUpUpper, show pyUpper "PX" = "PX" from by decide, pyInsert,
      pyGet, show ("PX" : String) ≠ "EX" from by decide, hqp, store_set]
  · simp [handle_set, pairUpUpper, pyGet, store_set]
  · cases hgh : get_hash now store k with
    | err s => simp [hash_set, hgh, he]
    | missing => simp [hash_set, hgh, pyGet_put_hash _ _ _ e he]
    | found hh => simp [hash_set, hgh, pyGet_put_hash _ _ _ e he]
  · cases hgh : get_hash now store k with
    | err s => simp [hash_setnx, hgh, he]
    | missing =>
      simp only [hash_setnx, hgh]
      cases hpf : pyGet ([] : List (String × String)) f with
      | some w => simp [pyGet] at hpf
      | none => simp [hpf, pyGet_put_hash _ _ _ e he]
    | found hh =>
      simp only [hash_setnx, hgh]
      cases hpf : pyGet hh f with
      | some w => simp [hpf, he]
      | none => simp [hpf, pyGet_put_hash _ _ _ e he]
  · cases hgh : get_hash now store k with
    | err s => left; simp [hash_del, hgh, he]
    | missing => left; simp [hash_del, hgh, he]
    | found hh =>
      by_cases hi : fields.foldl (fun acc f0 => pyRemoveKey acc f0) hh = []
      · right
        simp [hash_del, hgh, hi, pyGet_pyRemoveKey_self]
      · left
        simp [hash_del, hgh, hi, pyGet_put_hash _ _ _ e he]
  · cases hgh : get_hash now store k with
    | err s => simp [hash_incrby, hgh, he]
    | missing =>
      simp only [hash_incrby, hgh]
      cases hpi : pyParseInt ((pyGet ([] : List (String × String)) f).getD "0") with
      | none => simp [hpi, he]
      | some c => simp [hpi, pyGet_put_hash _ _ _ e he]
    | found hh =>
      simp only [hash_incrby, hgh]
      cases hpi : pyParseInt ((pyGet hh f).getD "0") with
      | none => simp [hpi, he]
      | some c => simp [hpi, pyGet_put_hash _ _ _ e he]
  · cases hgh : get_hash now store k with
    | err s => simp [hash_incrbyfloat, hgh, he]
    | missing =>
      simp only [hash_incrbyfloat, hgh]
      cases hpi : pyParseFloat ((pyGet ([] : List (String × String)) f).getD "0") with
      | none => simp [hpi, he]
      | some c => simp [hpi, pyGet_put_hash _ _ _ e he]
    | found hh =>
      simp only [hash_incrbyfloat, hgh]
      cases hpi : pyParseFloat ((pyGet hh f).getD "0") with
      | none => simp [hpi, he]
      | some c => simp [hpi, pyGet_put_hash _ _ _ e he]
  · cases hgz : get_zset now store k with
    | err s => simp [zset_add, hgz, he]
    | missing => simp [zset_add, hgz, pyGet_put_zset _ _ _ e he]
    | found z => simp [zset_add, hgz, pyGet_put_zset _ _ _ e he]
  · cases hgz : get_zset now store k with
    | err s => left; simp [zset_rem, hgz, he]
    | missing => left; simp [zset_rem, hgz, he]
    | found z =>
      by_cases hi : (zmembers.foldl zrem_step ⟨z.scores, z.ranked, 0, 0⟩).scores = []
      · right
        simp [zset_rem, hgz, hi, pyGet_pyRemoveKey_self]
      · left
        simp [zset_rem, hgz, hi, pyGet_put_zset _ _ _ e he]
  · cases hgz : get_zset now store k with
    | err s => simp [zset_incrby, hgz, he]
    | missing => simp [zset_incrby, hgz, zset_add, pyGet_put_zset _ _ _ e he]
    | found z => simp [zset_incrby, hgz, zset_add, pyGet_put_zset _ _ _ e he]

theorem c7_expiry_frame_witness :
    (pyParseFloat "10" = some 10 ∧ pyParseFloat "2500" = some 2500 ∧
      pyGet ([("k", ⟨.str "old", some 42⟩)] : Store) "k" = some ⟨.str "old", some 42⟩) ∧
    (handle_set 100 [("k", ⟨.str "old", some 42⟩)] ["k", "v", "EX", "10"] =
      some (pyInsert [("k", ⟨.str "old", some 42⟩)] "k" ⟨.str "v", some (100 + 10)⟩, OK) ∧
    handle_set 100 [("k", ⟨.str "old", some 42⟩)] ["k", "v", "PX", "2500"] =
      some (pyInsert [("k", ⟨.str "old", some 42⟩)] "k"
        ⟨.str "v", some (100 + 2500 / 1000)⟩, OK) ∧
    handle_set 100 [("k", ⟨.str "old", some 42⟩)] ["k", "v"] =
      some (pyInsert [("k", ⟨.str "old", some 42⟩)] "k" ⟨.str "v", none⟩, OK) ∧
    (pyGet (hash_set 100 [("k", ⟨.str "old", some 42⟩)] "k" [("f", "w")]).1 "k").map
      StoreEntry.expires_at = some (some 42) ∧
    (pyGet (hash_setnx 100 [("k", ⟨.str "old", some 42⟩)] "k" "f" "w").1 "k").map
      StoreEntry.expires_at = some (some 42) ∧
    ((pyGet (hash_del 100 [("k", ⟨.str "old", some 42⟩)] "k" ["f"]).1 "k").map
        StoreEntry.expires_at = some (some 42) ∨
      pyGet (hash_del 100 [("k", ⟨.str "old", some 42⟩)] "k" ["f"]).1 "k" = none) ∧
    (pyGet (hash_incrby 100 [("k", ⟨.str "old", some 42⟩)] "k" "f" 3).1 "k").map
      StoreEntry.expires_at = some (some 42) ∧
    (pyGet (hash_incrbyfloat 100 [("k", ⟨.str "old", some 42⟩)] "k" "f" 3).1 "k").map
      StoreEntry.expires_at = some (some 42) ∧
    (pyGet (zset_add 100 [("k", ⟨.str "old", some 42⟩)] "k" [("m", 1)]
        false false false false false).1 "k").map StoreEntry.expires_at = some (some 42) ∧
    ((pyGet (zset_rem 100 [("k", ⟨.str "old", some 42⟩)] "k" ["m"]).1 "k").map
        StoreEntry.expires_at = some (some 42) ∨
      pyGet (zset_rem 100 [("k", ⟨.str "old", some 42⟩)] "k" ["m"]).1 "k" = none) ∧
    (pyGet (zset_incrby 100 [("k", ⟨.str "old", some 42⟩)] "k" "m" 2).1 "k").map
      StoreEntry.expires_at = some (some 42)) :=
  ⟨⟨by decide, by decide, by decide⟩,
    c7_expiry_frame 100 [("k", ⟨.str "old", some 42⟩)] "k" "v" "10" "2500" "f" "w" "m"
      10 2500 ⟨.str "old", some 42⟩ [("f", "w")] ["f"] 3 3 2 [("m", 1)]
      false false false false false ["m"] (by decide) (by decide) (by decide)⟩

theorem c3_expired_key_reads_witness :
    (([("k", ⟨.str "v", some 50⟩)] : Store).map Prod.fst).Nodup ∧
    pyGet ([("k", ⟨.str "v", some 50⟩)] : Store) "k" = some ⟨.str "v", some 50⟩ ∧
    (50 : ℚ) < 100 ∧
    (handle_get 100 [("k", ⟨.str "v", some 50⟩)] ["k"] = .bulkv none ∧
      store_exists 100 [("k", ⟨.str "v", some 50⟩)] ["k"] = 0 ∧
      store_ttl 100 [("k", ⟨.str "v", some 50⟩)] "k" = 0 ∧
      "k" ∉ store_keys 100 [("k", ⟨.str "v", some 50⟩)] "*") :=
  ⟨by decide, by decide, by decide,
    c3_expired_key_reads 100 50 [("k", ⟨.str "v", some 50⟩)] "k" ⟨.str "v", some 50⟩
      (by decide) (by decide) (by decide) (by decide)⟩

theorem c9_del_counts_expired_witness :
    pyGet ([("k", ⟨.str "v", some 50⟩)] : Store) "k" = some ⟨.str "v", some 50⟩ ∧
    (50 : ℚ) < 100 ∧
    ((store_delete [("k", ⟨.str "v", some 50⟩)] ["k"]).2 = 1 ∧
      pyGet (store_delete [("k", ⟨.str "v", some 50⟩)] ["k"]).1 "k" = none ∧
      store_exists 100 [("k", ⟨.str "v", some 50⟩)] ["k"] = 0) :=
  ⟨by decide, by decide,
    c9_del_counts_expired 100 50 [("k", ⟨.str "v", some 50⟩)] "k" ⟨.str "v", some 50⟩
      (by decide) (by decide) (by decide)⟩

theorem c10_hset_on_expired_witness :
    pyGet ([("k", ⟨.hash [("g", "x")], some 50⟩)] : Store) "k" =
      some ⟨.hash [("g", "x")], some 50⟩ ∧
    (50 : ℚ) < 100 ∧
    (hash_set 100 [("k", ⟨.hash [("g", "x")], some 50⟩)] "k" [("f", "v")] =
      (pyInsert [("k", ⟨.hash [("g", "x")], some 50⟩)] "k" ⟨.hash [("f", "v")], some 50⟩,
        .int 1) ∧
     hash_get 100 (hash_set 100 [("k", ⟨.hash [("g", "x")], some 50⟩)] "k"
       [("f", "v")]).1 "k" "f" = none) :=
  ⟨by decide, by decide,
    c10_hset_on_expired 100 50 [("k", ⟨.hash [("g", "x")], some 50⟩)] "k" "f" "v"
      [("g", "x")] (by decide) (by decide)⟩
